import Mathlib

/-!
Shallow embedding of the kvhttp client (visvasity/kvhttp).

The Go client performs one HTTP POST round trip per operation.  The
network is modelled as an explicit environment: each round trip
consumes one `WireOutcome` value describing what the HTTP transport
and the response body did on that call.  Go `string` and `[]byte`
convert losslessly, so keys and values are modelled uniformly as
`Bytes`.  `uuid.New().String()` is an external opaque-id generator and
is modelled by passing the generated id to the operation as an
argument.  The `http.Client` stored in `DB` is exactly the transport
represented by the `WireOutcome` environment, so it is not repeated as
a field; the `closecalls` slice is never populated by the code and is
omitted for the same reason.
-/

namespace Kvhttp

/-- Byte strings (Go `[]byte`); each element stands for one byte. -/
abbrev Bytes := List Nat

/-! ### Wire schema, from src/api/api.go.  Field names follow the Go
structs; zero values (empty string / nil slice) are the defaults. -/

structure NewTransactionRequest where
  Name : String
deriving DecidableEq

structure NewTransactionResponse where
  Error : String
deriving DecidableEq

structure NewSnapshotRequest where
  Name : String
deriving DecidableEq

structure NewSnapshotResponse where
  Error : String
deriving DecidableEq

structure GetRequest where
  Transaction : String
  Snapshot : String
  Key : Bytes
deriving DecidableEq

structure GetResponse where
  Error : String
  Value : Bytes
deriving DecidableEq

structure SetRequest where
  Transaction : String
  Key : Bytes
  Value : Bytes
deriving DecidableEq

structure SetResponse where
  Error : String
deriving DecidableEq

structure DeleteRequest where
  Transaction : String
  Key : Bytes
deriving DecidableEq

structure DeleteResponse where
  Error : String
deriving DecidableEq

structure AscendRequest where
  Transaction : String
  Snapshot : String
  Begin : Bytes
  End : Bytes
  Name : String
deriving DecidableEq

structure AscendResponse where
  Error : String
deriving DecidableEq

structure DescendRequest where
  Transaction : String
  Snapshot : String
  Begin : Bytes
  End : Bytes
  Name : String
deriving DecidableEq

structure DescendResponse where
  Error : String
deriving DecidableEq

structure ScanRequest where
  Transaction : String
  Snapshot : String
  Name : String
deriving DecidableEq

structure ScanResponse where
  Error : String
deriving DecidableEq

structure NextRequest where
  Iterator : String
deriving DecidableEq

structure NextResponse where
  Error : String
  Key : Bytes
  Value : Bytes
deriving DecidableEq

structure CommitRequest where
  Transaction : String
deriving DecidableEq

structure CommitResponse where
  Error : String
deriving DecidableEq

structure RollbackRequest where
  Transaction : String
deriving DecidableEq

structure RollbackResponse where
  Error : String
deriving DecidableEq

structure DiscardRequest where
  Snapshot : String
deriving DecidableEq

structure DiscardResponse where
  Error : String
deriving DecidableEq

/-- Sum of every request body the client can send, used to record the
trace of issued requests. -/
inductive ApiReq where
  | newTransaction (r : NewTransactionRequest)
  | newSnapshot (r : NewSnapshotRequest)
  | get (r : GetRequest)
  | set (r : SetRequest)
  | delete (r : DeleteRequest)
  | ascend (r : AscendRequest)
  | descend (r : DescendRequest)
  | scan (r : ScanRequest)
  | next (r : NextRequest)
  | commit (r : CommitRequest)
  | rollback (r : RollbackRequest)
  | discard (r : DiscardRequest)
deriving DecidableEq

/-- One issued POST: the endpoint subpath handed to `doPost` and the
request body.  (`doPost` targets the URL obtained by path-joining the
client's base path with `sub`; the join itself plays no role in any
claim, so the trace records the subpath.) -/
structure Request where
  sub : String
  body : ApiReq
deriving DecidableEq

/-- Error values an operation can return, following the spec's
taxonomy in section 7.  `transport` covers network/send failures, a
non-OK HTTP status, and a failure while reading the response body;
`decode` is a response-deserialization (protocol) failure; `domain` is
an application-level error string from a decoded response; `invalid`
is Go's `os.ErrInvalid`; `reader` is an error produced by the
caller-supplied value reader in `Tx.Set`. -/
inductive Err where
  | transport (msg : String)
  | decode (msg : String)
  | domain (msg : String)
  | invalid
  | reader (msg : String)
deriving DecidableEq

/-- What happened to the response body of one round trip, once a
response with some status code arrived: reading the body failed,
JSON-decoding it failed, or it decoded to a response value. -/
inductive BodyOutcome (ρ : Type) where
  | readFailure (msg : String)
  | decodeFailure (msg : String)
  | decoded (resp : ρ)
deriving DecidableEq

/-- What the transport did on one round trip: `netFailure` covers
`http.NewRequestWithContext` or `httpClient.Do` returning an error
(including context cancellation); `status` is a received response with
its HTTP status code and body outcome. -/
inductive WireOutcome (ρ : Type) where
  | netFailure (msg : String)
  | status (code : Nat) (body : BodyOutcome ρ)
deriving DecidableEq

/-- Go `http.StatusOK`. -/
def statusOK : Nat := 200

/-- Response processing of `doPost` (both revisions have the same
logic): a transport failure is returned as-is; a response with a
status other than `http.StatusOK` fails with
`received non-ok http status %d` before the body is read or decoded;
otherwise the body is read and decoded, each step propagating its
error.  (`json.Marshal` of the api request structs cannot fail, so
the marshalling branch is total here.)  Request construction is done
at each call site, which also records the issued `Request`. -/
def doPost {ρ : Type} : WireOutcome ρ → Except Err ρ
  | .netFailure m => .error (.transport m)
  | .status code b =>
    if code ≠ statusOK then
      .error (.transport ("received non-ok http status " ++ toString code))
    else
      match b with
      | .readFailure m => .error (.transport m)
      | .decodeFailure m => .error (.decode m)
      | .decoded r => .ok r

/-- Modelled from the spec: `string2error` is called by the client but
its definition is not under src/; per the spec (section 4.1) it
translates a non-empty application-level error string into a domain
error built from that string, preserving only the text. -/
def string2error (s : String) : Err := .domain s

/-- A round trip that fully succeeded and decoded to `r`. -/
def okW {ρ : Type} (r : ρ) : WireOutcome ρ := .status statusOK (.decoded r)

/-! ### Client data model (src/unnamed/part_000) -/

/-- The components of `net/url.URL` the client touches: `Scheme`,
`Host`, `Path` are retained by `New`; `User` (credentials),
`RawQuery` and `Fragment` are the dropped components. -/
structure URL where
  Scheme : String := ""
  Host : String := ""
  Path : String := ""
  User : String := ""
  RawQuery : String := ""
  Fragment : String := ""
deriving DecidableEq

structure DB where
  dbURL : URL
deriving DecidableEq

structure Tx where
  db : DB
  id : String
deriving DecidableEq

structure Snap where
  db : DB
  id : String
deriving DecidableEq

/-- `New(baseURL, client)`: retains only `Host`, `Scheme` and `Path`
of the given URL and performs no round trip (the function consumes no
`WireOutcome`).  The `client == nil` default only selects the
transport and is outside this model. -/
def New (baseURL : URL) : DB :=
  { dbURL := { Host := baseURL.Host, Scheme := baseURL.Scheme, Path := baseURL.Path } }

def DB.ServerURL (db : DB) : URL := db.dbURL

/-- `DB.NewTransaction`; `id` is the value of `uuid.New().String()`.
Returns the trace of issued requests and the result. -/
def DB.NewTransaction (db : DB) (id : String)
    (w : WireOutcome NewTransactionResponse) : List Request × Except Err Tx :=
  let sent : Request := ⟨"/new-transaction", .newTransaction ⟨id⟩⟩
  match doPost w with
  | .error e => ([sent], .error e)
  | .ok resp =>
    if resp.Error.length ≠ 0 then ([sent], .error (string2error resp.Error))
    else ([sent], .ok ⟨db, id⟩)

/-- `DB.NewSnapshot`; `id` is the value of `uuid.New().String()`. -/
def DB.NewSnapshot (db : DB) (id : String)
    (w : WireOutcome NewSnapshotResponse) : List Request × Except Err Snap :=
  let sent : Request := ⟨"/new-snapshot", .newSnapshot ⟨id⟩⟩
  match doPost w with
  | .error e => ([sent], .error e)
  | .ok resp =>
    if resp.Error.length ≠ 0 then ([sent], .error (string2error resp.Error))
    else ([sent], .ok ⟨db, id⟩)

/-- `Tx.Get`: on success the returned `io.Reader` is
`bytes.NewReader(resp.Value)`, i.e. exactly the `Value` bytes. -/
def Tx.Get (tx : Tx) (key : Bytes) (w : WireOutcome GetResponse) :
    List Request × Except Err Bytes :=
  let sent : Request := ⟨"/tx/get", .get ⟨tx.id, "", key⟩⟩
  match doPost w with
  | .error e => ([sent], .error e)
  | .ok resp =>
    if resp.Error.length ≠ 0 then ([sent], .error (string2error resp.Error))
    else ([sent], .ok resp.Value)

/-- The caller-supplied `io.Reader` of `Tx.Set`: the nil interface, a
reader whose `io.ReadAll` fails with an error, or a reader yielding
`data`. -/
inductive ValueReader where
  | nilReader
  | failing (msg : String)
  | ok (data : Bytes)
deriving DecidableEq

/-- `Tx.Set`, first variant (the one whose types match src/api): a nil
value fails with `os.ErrInvalid` before anything is sent; otherwise
the value is read fully (`io.ReadAll`) before the request is built,
a read failure being returned with nothing sent. -/
def Tx.Set (tx : Tx) (key : Bytes) (value : ValueReader)
    (w : WireOutcome SetResponse) : List Request × Except Err Unit :=
  match value with
  | .nilReader => ([], .error .invalid)
  | .failing m => ([], .error (.reader m))
  | .ok data =>
    let sent : Request := ⟨"/tx/set", .set ⟨tx.id, key, data⟩⟩
    match doPost w with
    | .error e => ([sent], .error e)
    | .ok resp =>
      if resp.Error.length ≠ 0 then ([sent], .error (string2error resp.Error))
      else ([sent], .ok ())

def Tx.Delete (tx : Tx) (key : Bytes) (w : WireOutcome DeleteResponse) :
    List Request × Except Err Unit :=
  let sent : Request := ⟨"/tx/delete", .delete ⟨tx.id, key⟩⟩
  match doPost w with
  | .error e => ([sent], .error e)
  | .ok resp =>
    if resp.Error.length ≠ 0 then ([sent], .error (string2error resp.Error))
    else ([sent], .ok ())

def Tx.Commit (tx : Tx) (w : WireOutcome CommitResponse) :
    List Request × Except Err Unit :=
  let sent : Request := ⟨"/tx/commit", .commit ⟨tx.id⟩⟩
  match doPost w with
  | .error e => ([sent], .error e)
  | .ok resp =>
    if resp.Error.length ≠ 0 then ([sent], .error (string2error resp.Error))
    else ([sent], .ok ())

def Tx.Rollback (tx : Tx) (w : WireOutcome RollbackResponse) :
    List Request × Except Err Unit :=
  let sent : Request := ⟨"/tx/rollback", .rollback ⟨tx.id⟩⟩
  match doPost w with
  | .error e => ([sent], .error e)
  | .ok resp =>
    if resp.Error.length ≠ 0 then ([sent], .error (string2error resp.Error))
    else ([sent], .ok ())

def Snap.Get (snap : Snap) (key : Bytes) (w : WireOutcome GetResponse) :
    List Request × Except Err Bytes :=
  let sent : Request := ⟨"/snap/get", .get ⟨"", snap.id, key⟩⟩
  match doPost w with
  | .error e => ([sent], .error e)
  | .ok resp =>
    if resp.Error.length ≠ 0 then ([sent], .error (string2error resp.Error))
    else ([sent], .ok resp.Value)

def Snap.Discard (snap : Snap) (w : WireOutcome DiscardResponse) :
    List Request × Except Err Unit :=
  let sent : Request := ⟨"/snap/discard", .discard ⟨snap.id⟩⟩
  match doPost w with
  | .error e => ([sent], .error e)
  | .ok resp =>
    if resp.Error.length ≠ 0 then ([sent], .error (string2error resp.Error))
    else ([sent], .ok ())

/-! ### Cursor protocol -/

/-- How one run of a cursor sequence ended. -/
inductive RunEnd where
  | openFailed
  | errored
  | eof
  | stopped
  | outOfReplies
deriving DecidableEq

/-- Observable outcome of running one cursor sequence to completion:
every request it issued in order, the entries handed to `yield`, what
(if anything) was written to the caller's error slot `*errp`, and how
the run ended.  `outOfReplies` marks an environment that ran out of
supplied `/it/next` outcomes while the loop was still going (the Go
loop would simply issue the next round trip). -/
structure CursorRun where
  sent : List Request
  yielded : List (Bytes × Bytes)
  errSlot : Option Err
  ending : RunEnd
deriving DecidableEq

/-- The `/it/next` request issued by every cursor loop iteration:
`api.NextRequest{Iterator: req1.Name}`. -/
def itNext (name : String) : Request := ⟨"/it/next", .next ⟨name⟩⟩

/-- The shared `for` loop of all six cursor methods (both revisions
have it verbatim): each iteration posts `NextRequest{Iterator: name}`;
a `doPost` error or a non-empty `Error` string goes into `*errp` and
ends the run; an empty `Key` is EOF; otherwise the entry is passed to
`yield`, whose `false` return ends the run silently.  The consumer
`yield` receives the count of entries yielded before it, standing for
any state the Go closure carries. -/
def nextLoop (name : String) (yield : Nat → Bytes → Bytes → Bool) (idx : Nat) :
    List (WireOutcome NextResponse) → CursorRun
  | [] => ⟨[], [], none, .outOfReplies⟩
  | w :: ws =>
    match doPost w with
    | .error e => ⟨[itNext name], [], some e, .errored⟩
    | .ok resp =>
      if resp.Error.length ≠ 0 then
        ⟨[itNext name], [], some (string2error resp.Error), .errored⟩
      else if resp.Key.length = 0 then
        ⟨[itNext name], [], none, .eof⟩
      else if yield idx resp.Key resp.Value then
        let l := nextLoop name yield (idx + 1) ws
        ⟨itNext name :: l.sent, (resp.Key, resp.Value) :: l.yielded, l.errSlot, l.ending⟩
      else
        ⟨[itNext name], [(resp.Key, resp.Value)], none, .stopped⟩

/-- The shared open-then-loop body of all six cursor methods: post the
open request `sent1`; a `doPost` error or a non-empty error string
(read off the open response by `errOf`) goes into `*errp` and the run
ends before any entry; otherwise the `/it/next` loop runs. -/
def openThen {ρ : Type} (sent1 : Request) (errOf : ρ → String)
    (w1 : WireOutcome ρ) (name : String) (yield : Nat → Bytes → Bytes → Bool)
    (ws : List (WireOutcome NextResponse)) : CursorRun :=
  match doPost w1 with
  | .error e => ⟨[sent1], [], some e, .openFailed⟩
  | .ok resp =>
    if (errOf resp).length ≠ 0 then
      ⟨[sent1], [], some (string2error (errOf resp)), .openFailed⟩
    else
      let l := nextLoop name yield 0 ws
      ⟨sent1 :: l.sent, l.yielded, l.errSlot, l.ending⟩

/-- `Tx.Ascend`; `name` is the value of `uuid.New().String()` for this
invocation, `w1` the open round trip's outcome and `ws` the supply of
`/it/next` outcomes. -/
def Tx.Ascend (tx : Tx) (beg en : Bytes) (name : String)
    (yield : Nat → Bytes → Bytes → Bool) (w1 : WireOutcome AscendResponse)
    (ws : List (WireOutcome NextResponse)) : CursorRun :=
  openThen ⟨"/tx/ascend", .ascend ⟨tx.id, "", beg, en, name⟩⟩
    AscendResponse.Error w1 name yield ws

def Tx.Descend (tx : Tx) (beg en : Bytes) (name : String)
    (yield : Nat → Bytes → Bytes → Bool) (w1 : WireOutcome DescendResponse)
    (ws : List (WireOutcome NextResponse)) : CursorRun :=
  openThen ⟨"/tx/descend", .descend ⟨tx.id, "", beg, en, name⟩⟩
    DescendResponse.Error w1 name yield ws

/-- `Tx.Scan` (present in the second revision of the client file). -/
def Tx.Scan (tx : Tx) (name : String)
    (yield : Nat → Bytes → Bytes → Bool) (w1 : WireOutcome ScanResponse)
    (ws : List (WireOutcome NextResponse)) : CursorRun :=
  openThen ⟨"/tx/scan", .scan ⟨tx.id, "", name⟩⟩
    ScanResponse.Error w1 name yield ws

def Snap.Ascend (snap : Snap) (beg en : Bytes) (name : String)
    (yield : Nat → Bytes → Bytes → Bool) (w1 : WireOutcome AscendResponse)
    (ws : List (WireOutcome NextResponse)) : CursorRun :=
  openThen ⟨"/snap/ascend", .ascend ⟨"", snap.id, beg, en, name⟩⟩
    AscendResponse.Error w1 name yield ws

def Snap.Descend (snap : Snap) (beg en : Bytes) (name : String)
    (yield : Nat → Bytes → Bytes → Bool) (w1 : WireOutcome DescendResponse)
    (ws : List (WireOutcome NextResponse)) : CursorRun :=
  openThen ⟨"/snap/descend", .descend ⟨"", snap.id, beg, en, name⟩⟩
    DescendResponse.Error w1 name yield ws

/-- `Snap.Scan` (present in the second revision of the client file). -/
def Snap.Scan (snap : Snap) (name : String)
    (yield : Nat → Bytes → Bytes → Bool) (w1 : WireOutcome ScanResponse)
    (ws : List (WireOutcome NextResponse)) : CursorRun :=
  openThen ⟨"/snap/scan", .scan ⟨"", snap.id, name⟩⟩
    ScanResponse.Error w1 name yield ws

/-! ### Uniform view of the six cursor sequences, for stating claims
that quantify over all of them. -/

/-- The six cursor sequence methods. -/
inductive CKind where
  | txAscend
  | txDescend
  | txScan
  | snapAscend
  | snapDescend
  | snapScan
deriving DecidableEq

/-- Common shape of every cursor-open response (each carries exactly
an `Error` string). -/
structure OpenReply where
  Error : String
deriving DecidableEq

def BodyOutcome.map {ρ σ : Type} (f : ρ → σ) : BodyOutcome ρ → BodyOutcome σ
  | .readFailure m => .readFailure m
  | .decodeFailure m => .decodeFailure m
  | .decoded r => .decoded (f r)

def WireOutcome.map {ρ σ : Type} (f : ρ → σ) : WireOutcome ρ → WireOutcome σ
  | .netFailure m => .netFailure m
  | .status c b => .status c (b.map f)

/-- Run the cursor sequence `k` on session id `sid` of database `db`.
For the two Scan methods the bounds `beg`/`en` are unused, matching
`ScanRequest`. -/
def runCursor (k : CKind) (db : DB) (sid : String) (beg en : Bytes)
    (name : String) (yield : Nat → Bytes → Bytes → Bool)
    (w1 : WireOutcome OpenReply) (ws : List (WireOutcome NextResponse)) : CursorRun :=
  match k with
  | .txAscend => Tx.Ascend ⟨db, sid⟩ beg en name yield (w1.map fun o => ⟨o.Error⟩) ws
  | .txDescend => Tx.Descend ⟨db, sid⟩ beg en name yield (w1.map fun o => ⟨o.Error⟩) ws
  | .txScan => Tx.Scan ⟨db, sid⟩ name yield (w1.map fun o => ⟨o.Error⟩) ws
  | .snapAscend => Snap.Ascend ⟨db, sid⟩ beg en name yield (w1.map fun o => ⟨o.Error⟩) ws
  | .snapDescend => Snap.Descend ⟨db, sid⟩ beg en name yield (w1.map fun o => ⟨o.Error⟩) ws
  | .snapScan => Snap.Scan ⟨db, sid⟩ name yield (w1.map fun o => ⟨o.Error⟩) ws

/-- The open request each cursor sequence issues. -/
def openRequest (k : CKind) (sid : String) (beg en : Bytes) (name : String) : Request :=
  match k with
  | .txAscend => ⟨"/tx/ascend", .ascend ⟨sid, "", beg, en, name⟩⟩
  | .txDescend => ⟨"/tx/descend", .descend ⟨sid, "", beg, en, name⟩⟩
  | .txScan => ⟨"/tx/scan", .scan ⟨sid, "", name⟩⟩
  | .snapAscend => ⟨"/snap/ascend", .ascend ⟨"", sid, beg, en, name⟩⟩
  | .snapDescend => ⟨"/snap/descend", .descend ⟨"", sid, beg, en, name⟩⟩
  | .snapScan => ⟨"/snap/scan", .scan ⟨"", sid, name⟩⟩

/-! ### Spec-side helper functions used in theorem statements. -/

/-- The error, if any, that one reply produces under the client's
uniform handling: a `doPost` error as-is, a decoded response with a
non-empty error string through `string2error`, and none otherwise. -/
def replyError {ρ : Type} (errOf : ρ → String) (w : WireOutcome ρ) : Option Err :=
  match doPost w with
  | .error e => some e
  | .ok r => if (errOf r).length ≠ 0 then some (string2error (errOf r)) else none

/-- The cursor id a request references: the fresh `Name` of an open
request, the `Iterator` of a `/it/next` request. -/
def reqCursorName : ApiReq → Option String
  | .ascend r => some r.Name
  | .descend r => some r.Name
  | .scan r => some r.Name
  | .next r => some r.Iterator
  | _ => none

/-- A `/it/next` reply that carries an entry (non-empty key). -/
def hasKey (r : NextResponse) : Bool := r.Key.length != 0

/-- The entry a `/it/next` reply carries. -/
def entryOf (r : NextResponse) : Bytes × Bytes := (r.Key, r.Value)

/-- A consumer that never stops early. -/
def yieldAll : Nat → Bytes → Bytes → Bool := fun _ _ _ => true

/-- A consumer that consumes `j + 1` entries and then stops: it
returns `false` on the entry with index `j`. -/
def stopAfter (j : Nat) : Nat → Bytes → Bytes → Bool := fun i _ _ => decide (i < j)

/-- Sample database used by concrete witnesses. -/
def sampleDB : DB := ⟨⟨"http", "localhost:8080", "/kv", "", "", ""⟩⟩

/-! ### Characterization lemmas -/

theorem doPost_okW {ρ : Type} (r : ρ) : doPost (okW r) = .ok r := by
  simp [doPost, okW]

theorem doPost_map {ρ σ : Type} (f : ρ → σ) (w : WireOutcome ρ) :
    doPost (w.map f) = Except.map f (doPost w) := by
  cases w with
  | netFailure m => rfl
  | status c b =>
    by_cases h : c = statusOK <;>
      cases b <;> simp [doPost, WireOutcome.map, BodyOutcome.map, Except.map, h]

theorem replyError_map {ρ : Type} (errOf : ρ → String) (f : OpenReply → ρ)
    (hf : ∀ o, errOf (f o) = o.Error) (w : WireOutcome OpenReply) :
    replyError errOf (w.map f) = replyError OpenReply.Error w := by
  unfold replyError
  rw [doPost_map]
  cases h : doPost w with
  | error e => rfl
  | ok r => simp [Except.map, hf]

theorem replyError_okW {ρ : Type} (errOf : ρ → String) (r : ρ) :
    replyError errOf (okW r) =
      if (errOf r).length ≠ 0 then some (string2error (errOf r)) else none := by
  simp [replyError, doPost_okW]

theorem openThen_eq {ρ : Type} (sent1 : Request) (errOf : ρ → String)
    (w1 : WireOutcome ρ) (name : String) (yield : Nat → Bytes → Bytes → Bool)
    (ws : List (WireOutcome NextResponse)) :
    openThen sent1 errOf w1 name yield ws =
      match replyError errOf w1 with
      | some e => ⟨[sent1], [], some e, .openFailed⟩
      | none =>
        let l := nextLoop name yield 0 ws
        ⟨sent1 :: l.sent, l.yielded, l.errSlot, l.ending⟩ := by
  unfold openThen replyError
  cases h : doPost w1 with
  | error e => rfl
  | ok r => by_cases he : (errOf r).length ≠ 0 <;> simp [he]

theorem runCursor_eq (k : CKind) (db : DB) (sid : String) (beg en : Bytes)
    (name : String) (yield : Nat → Bytes → Bytes → Bool)
    (w1 : WireOutcome OpenReply) (ws : List (WireOutcome NextResponse)) :
    runCursor k db sid beg en name yield w1 ws =
      match replyError OpenReply.Error w1 with
      | some e => ⟨[openRequest k sid beg en name], [], some e, .openFailed⟩
      | none =>
        let l := nextLoop name yield 0 ws
        ⟨openRequest k sid beg en name :: l.sent, l.yielded, l.errSlot, l.ending⟩ := by
  cases k with
  | txAscend =>
    simp only [runCursor, Tx.Ascend, openRequest]
    rw [openThen_eq, replyError_map AscendResponse.Error (fun o => ⟨o.Error⟩) (fun o => rfl) w1]
  | txDescend =>
    simp only [runCursor, Tx.Descend, openRequest]
    rw [openThen_eq, replyError_map DescendResponse.Error (fun o => ⟨o.Error⟩) (fun o => rfl) w1]
  | txScan =>
    simp only [runCursor, Tx.Scan, openRequest]
    rw [openThen_eq, replyError_map ScanResponse.Error (fun o => ⟨o.Error⟩) (fun o => rfl) w1]
  | snapAscend =>
    simp only [runCursor, Snap.Ascend, openRequest]
    rw [openThen_eq, replyError_map AscendResponse.Error (fun o => ⟨o.Error⟩) (fun o => rfl) w1]
  | snapDescend =>
    simp only [runCursor, Snap.Descend, openRequest]
    rw [openThen_eq, replyError_map DescendResponse.Error (fun o => ⟨o.Error⟩) (fun o => rfl) w1]
  | snapScan =>
    simp only [runCursor, Snap.Scan, openRequest]
    rw [openThen_eq, replyError_map ScanResponse.Error (fun o => ⟨o.Error⟩) (fun o => rfl) w1]

theorem openRequest_name (k : CKind) (sid : String) (beg en : Bytes) (name : String) :
    reqCursorName (openRequest k sid beg en name).body = some name := by
  cases k <;> rfl

theorem nextLoop_sent_mem (name : String) (yield : Nat → Bytes → Bytes → Bool) :
    ∀ (ws : List (WireOutcome NextResponse)) (idx : Nat),
      ∀ r ∈ (nextLoop name yield idx ws).sent, r = itNext name := by
  intro ws
  induction ws with
  | nil => intro idx r hr; simp [nextLoop] at hr
  | cons w ws ih =>
    intro idx r hr
    simp only [nextLoop] at hr
    cases h : doPost w with
    | error e => rw [h] at hr; simp at hr; exact hr
    | ok resp =>
      rw [h] at hr
      by_cases h1 : resp.Error.length ≠ 0
      · simp [h1] at hr; exact hr
      · by_cases h2 : resp.Key.length = 0
        · simp [h1, h2] at hr; exact hr
        · by_cases h3 : yield idx resp.Key resp.Value
          · simp [h1, h2, h3] at hr
            rcases hr with hr | hr
            · exact hr
            · exact ih (idx + 1) r hr
          · simp [h1, h2, h3] at hr; exact hr

theorem nextLoop_cons_okW (name : String) (yield : Nat → Bytes → Bytes → Bool)
    (idx : Nat) (r : NextResponse) (ws : List (WireOutcome NextResponse)) :
    nextLoop name yield idx (okW r :: ws) =
      if r.Error.length ≠ 0 then
        ⟨[itNext name], [], some (string2error r.Error), .errored⟩
      else if r.Key.length = 0 then
        ⟨[itNext name], [], none, .eof⟩
      else if yield idx r.Key r.Value then
        ⟨itNext name :: (nextLoop name yield (idx + 1) ws).sent,
         (r.Key, r.Value) :: (nextLoop name yield (idx + 1) ws).yielded,
         (nextLoop name yield (idx + 1) ws).errSlot,
         (nextLoop name yield (idx + 1) ws).ending⟩
      else
        ⟨[itNext name], [(r.Key, r.Value)], none, .stopped⟩ := by
  simp only [nextLoop, doPost_okW]

theorem nextLoop_clean (name : String) :
    ∀ (rs : List NextResponse), (∀ r ∈ rs, r.Error = "") → ∀ idx,
      nextLoop name yieldAll idx (rs.map okW) =
        ⟨List.replicate (min ((rs.takeWhile hasKey).length + 1) rs.length) (itNext name),
         (rs.takeWhile hasKey).map entryOf, none,
         if (rs.takeWhile hasKey).length < rs.length then .eof else .outOfReplies⟩ := by
  intro rs
  induction rs with
  | nil => intro _ idx; simp [nextLoop]
  | cons r rs ih =>
    intro h idx
    have hr : r.Error = "" := h r (List.mem_cons_self r rs)
    have hrs : ∀ x ∈ rs, x.Error = "" := fun x hx => h x (List.mem_cons_of_mem r hx)
    rw [List.map_cons, nextLoop_cons_okW]
    by_cases hk : r.Key.length = 0
    · have hkb : hasKey r = false := by simp [hasKey, hk]
      have hmin : min ((0 : Nat) + 1) (rs.length + 1) = 1 := by omega
      simp [List.takeWhile_cons, hkb, hr, hk, hmin, List.replicate]
    · have hkb : hasKey r = true := by simpa [hasKey] using hk
      rw [ih hrs (idx + 1)]
      simp [List.takeWhile_cons, hkb, hr, hk, yieldAll, entryOf, Nat.succ_min_succ,
        List.replicate_succ, Nat.succ_lt_succ_iff]

theorem nextLoop_err (name : String) (e : Err) :
    ∀ (good : List NextResponse), (∀ r ∈ good, r.Error = "" ∧ r.Key.length ≠ 0) →
    ∀ (w : WireOutcome NextResponse), replyError NextResponse.Error w = some e →
    ∀ (ws : List (WireOutcome NextResponse)) (idx : Nat),
      nextLoop name yieldAll idx (good.map okW ++ w :: ws) =
        ⟨List.replicate (good.length + 1) (itNext name), good.map entryOf,
         some e, .errored⟩ := by
  intro good
  induction good with
  | nil =>
    intro _ w hw ws idx
    unfold replyError at hw
    simp only [List.map_nil, List.nil_append, nextLoop]
    cases h : doPost w with
    | error e2 => rw [h] at hw; simp at hw; simp [hw]
    | ok resp =>
      rw [h] at hw
      by_cases he : resp.Error.length ≠ 0
      · simp [he] at hw ⊢; simp [hw]
      · simp [he] at hw
  | cons r good ih =>
    intro h w hw ws idx
    have hr := h r (List.mem_cons_self r good)
    have hgood : ∀ x ∈ good, x.Error = "" ∧ x.Key.length ≠ 0 :=
      fun x hx => h x (List.mem_cons_of_mem r hx)
    rw [List.map_cons, List.cons_append, nextLoop_cons_okW, ih hgood w hw ws (idx + 1)]
    simp [hr.1, hr.2, yieldAll, entryOf, List.replicate_succ]

theorem nextLoop_stop (name : String) (j : Nat) :
    ∀ (rs : List NextResponse), (∀ r ∈ rs, r.Error = "" ∧ r.Key.length ≠ 0) →
    ∀ idx, idx + rs.length = j + 1 → rs ≠ [] →
    ∀ (ws : List (WireOutcome NextResponse)),
      nextLoop name (stopAfter j) idx (rs.map okW ++ ws) =
        ⟨List.replicate rs.length (itNext name), rs.map entryOf, none, .stopped⟩ := by
  intro rs
  induction rs with
  | nil => intro _ _ _ hne; exact absurd rfl hne
  | cons r rs ih =>
    intro h idx hidx _ ws
    have hr := h r (List.mem_cons_self r rs)
    have hrs : ∀ x ∈ rs, x.Error = "" ∧ x.Key.length ≠ 0 :=
      fun x hx => h x (List.mem_cons_of_mem r hx)
    cases rs with
    | nil =>
      have hj : idx = j := by simp at hidx; omega
      rw [List.map_cons, List.map_nil, List.cons_append, List.nil_append, nextLoop_cons_okW]
      simp [hr.1, hr.2, stopAfter, hj, entryOf, List.replicate]
    | cons r2 rs2 =>
      have hlt : idx < j := by simp at hidx; omega
      have hidx2 : (idx + 1) + (r2 :: rs2).length = j + 1 := by simp at hidx ⊢; omega
      rw [List.map_cons, List.cons_append, nextLoop_cons_okW,
        ih hrs (idx + 1) hidx2 (by simp) ws]
      simp [hr.1, hr.2, stopAfter, hlt, entryOf, List.replicate_succ]

theorem takeWhile_lt_iff (rs : List NextResponse) :
    (rs.takeWhile hasKey).length < rs.length ↔ ∃ r ∈ rs, r.Key.length = 0 := by
  induction rs with
  | nil => simp
  | cons r rs ih =>
    by_cases hk : r.Key.length = 0
    · have hkb : hasKey r = false := by simp [hasKey, hk]
      simp [List.takeWhile_cons, hkb]
      exact Or.inl (List.length_eq_zero.mp hk)
    · have hkb : hasKey r = true := by simpa [hasKey] using hk
      simp [List.takeWhile_cons, hkb, Nat.succ_lt_succ_iff, ih, hk]
      exact fun h0 => absurd (List.length_eq_zero.mpr h0) hk

theorem runCursor_sent_names (k : CKind) (db : DB) (sid : String) (beg en : Bytes)
    (name : String) (yield : Nat → Bytes → Bytes → Bool)
    (w1 : WireOutcome OpenReply) (ws : List (WireOutcome NextResponse)) :
    ∀ r ∈ (runCursor k db sid beg en name yield w1 ws).sent,
      reqCursorName r.body = some name := by
  rw [runCursor_eq]
  cases hre : replyError OpenReply.Error w1 with
  | some e =>
    intro r hr
    simp at hr
    rw [hr]
    exact openRequest_name k sid beg en name
  | none =>
    intro r hr
    simp at hr
    rcases hr with hr | hr
    · rw [hr]; exact openRequest_name k sid beg en name
    · rw [nextLoop_sent_mem name yield ws 0 r hr]; rfl

/-! ### Claim theorems -/

/-- Claim C1: for every cursor sequence (Tx.Ascend, Tx.Descend, Snap.Ascend,
Snap.Descend, and the two Scan methods), after a successful open the sequence
yields exactly the (key, value) entries of the successive /it/next replies, in
reply order, and terminates normally (no error written to the error slot)
exactly when a reply carries an empty key. -/
theorem cursor_yields_reply_entries (k : CKind) (db : DB) (sid : String)
    (beg en : Bytes) (name : String) (rs : List NextResponse)
    (h : ∀ r ∈ rs, r.Error = "") :
    (runCursor k db sid beg en name yieldAll (okW ⟨""⟩) (rs.map okW)).yielded =
        (rs.takeWhile hasKey).map entryOf ∧
    (runCursor k db sid beg en name yieldAll (okW ⟨""⟩) (rs.map okW)).errSlot = none ∧
    ((runCursor k db sid beg en name yieldAll (okW ⟨""⟩) (rs.map okW)).ending = .eof ↔
        ∃ r ∈ rs, r.Key.length = 0) := by
  have hopen : replyError OpenReply.Error (okW (⟨""⟩ : OpenReply)) = none := by
    simp [replyError_okW]
  have hrun : runCursor k db sid beg en name yieldAll (okW ⟨""⟩) (rs.map okW) =
      ⟨openRequest k sid beg en name ::
         List.replicate (min ((rs.takeWhile hasKey).length + 1) rs.length) (itNext name),
       (rs.takeWhile hasKey).map entryOf, none,
       if (rs.takeWhile hasKey).length < rs.length then .eof else .outOfReplies⟩ := by
    rw [runCursor_eq, hopen, nextLoop_clean name rs h 0]
  refine ⟨by rw [hrun], by rw [hrun], ?_⟩
  by_cases hlt : (rs.takeWhile hasKey).length < rs.length
  · have he : (runCursor k db sid beg en name yieldAll (okW ⟨""⟩) (rs.map okW)).ending =
        .eof := by rw [hrun]; simp [hlt]
    exact iff_of_true he ((takeWhile_lt_iff rs).mp hlt)
  · have he : (runCursor k db sid beg en name yieldAll (okW ⟨""⟩) (rs.map okW)).ending =
        .outOfReplies := by rw [hrun]; simp [hlt]
    rw [he]
    constructor
    · intro hc; exact absurd hc (by decide)
    · intro hex; exact absurd ((takeWhile_lt_iff rs).mpr hex) hlt

/-- Claim C2: for every cursor sequence, any error on the open call or on any
/it/next call is written into the caller's error slot and the sequence stops
yielding; if the open call fails, the error slot is set and zero entries are
yielded (and no /it/next request is issued at all). -/
theorem cursor_errors_to_error_slot (k : CKind) (db : DB) (sid : String)
    (beg en : Bytes) (name : String) (e : Err) :
    (∀ (yield : Nat → Bytes → Bytes → Bool) (w1 : WireOutcome OpenReply)
        (ws : List (WireOutcome NextResponse)),
      replyError OpenReply.Error w1 = some e →
      runCursor k db sid beg en name yield w1 ws =
        ⟨[openRequest k sid beg en name], [], some e, .openFailed⟩) ∧
    (∀ (good : List NextResponse) (w : WireOutcome NextResponse)
        (ws : List (WireOutcome NextResponse)),
      (∀ r ∈ good, r.Error = "" ∧ r.Key.length ≠ 0) →
      replyError NextResponse.Error w = some e →
      runCursor k db sid beg en name yieldAll (okW ⟨""⟩) (good.map okW ++ w :: ws) =
        ⟨openRequest k sid beg en name :: List.replicate (good.length + 1) (itNext name),
         good.map entryOf, some e, .errored⟩) := by
  constructor
  · intro yield w1 ws hw
    rw [runCursor_eq, hw]
  · intro good w ws hg hw
    have hopen : replyError OpenReply.Error (okW (⟨""⟩ : OpenReply)) = none := by
      simp [replyError_okW]
    rw [runCursor_eq, hopen, nextLoop_err name e good hg w hw ws 0]

/-- Claim C3: when the HTTP response carries a status other than 200 OK (hence
any non-success status), `doPost` fails with a transport error carrying that
status code, and the response body is never read, decoded or interpreted (the
result is the same for every body outcome). -/
theorem doPost_non_ok_is_transport {ρ : Type} (code : Nat) (h : code ≠ statusOK)
    (b b2 : BodyOutcome ρ) :
    doPost (.status code b) =
      (.error (.transport ("received non-ok http status " ++ toString code)) :
        Except Err ρ) ∧
    doPost (.status code b) = doPost (.status code b2) := by
  constructor <;> simp [doPost, h]

/-- Claim C4: for every operation (NewTransaction, NewSnapshot, Get, Set,
Delete, Commit, Rollback, Discard, and cursor open/next), if the transport
call succeeds and the decoded response carries a non-empty Error string, the
operation fails with a domain error built from that string; if the Error
string is empty, the operation succeeds — each round trip either fully
succeeds or reports exactly one error. -/
theorem every_op_translates_error_string (db : DB) (tx : Tx) (snap : Snap)
    (id sid name s : String) (key v data kk : Bytes) (k : CKind) (beg en : Bytes)
    (yield : Nat → Bytes → Bytes → Bool) (idx : Nat)
    (ws : List (WireOutcome NextResponse)) :
    ((DB.NewTransaction db id (okW ⟨s⟩)).2 =
        if s.length ≠ 0 then .error (.domain s) else .ok ⟨db, id⟩) ∧
    ((DB.NewSnapshot db id (okW ⟨s⟩)).2 =
        if s.length ≠ 0 then .error (.domain s) else .ok ⟨db, id⟩) ∧
    ((Tx.Get tx key (okW ⟨s, v⟩)).2 =
        if s.length ≠ 0 then .error (.domain s) else .ok v) ∧
    ((Snap.Get snap key (okW ⟨s, v⟩)).2 =
        if s.length ≠ 0 then .error (.domain s) else .ok v) ∧
    ((Tx.Set tx key (.ok data) (okW ⟨s⟩)).2 =
        if s.length ≠ 0 then .error (.domain s) else .ok ()) ∧
    ((Tx.Delete tx key (okW ⟨s⟩)).2 =
        if s.length ≠ 0 then .error (.domain s) else .ok ()) ∧
    ((Tx.Commit tx (okW ⟨s⟩)).2 =
        if s.length ≠ 0 then .error (.domain s) else .ok ()) ∧
    ((Tx.Rollback tx (okW ⟨s⟩)).2 =
        if s.length ≠ 0 then .error (.domain s) else .ok ()) ∧
    ((Snap.Discard snap (okW ⟨s⟩)).2 =
        if s.length ≠ 0 then .error (.domain s) else .ok ()) ∧
    (runCursor k db sid beg en name yield (okW ⟨s⟩) ws =
        if s.length ≠ 0 then
          ⟨[openRequest k sid beg en name], [], some (.domain s), .openFailed⟩
        else
          ⟨openRequest k sid beg en name :: (nextLoop name yield 0 ws).sent,
           (nextLoop name yield 0 ws).yielded, (nextLoop name yield 0 ws).errSlot,
           (nextLoop name yield 0 ws).ending⟩) ∧
    (nextLoop name yield idx (okW ⟨s, kk, v⟩ :: ws) =
        if s.length ≠ 0 then ⟨[itNext name], [], some (.domain s), .errored⟩
        else if kk.length = 0 then ⟨[itNext name], [], none, .eof⟩
        else if yield idx kk v then
          ⟨itNext name :: (nextLoop name yield (idx + 1) ws).sent,
           (kk, v) :: (nextLoop name yield (idx + 1) ws).yielded,
           (nextLoop name yield (idx + 1) ws).errSlot,
           (nextLoop name yield (idx + 1) ws).ending⟩
        else ⟨[itNext name], [(kk, v)], none, .stopped⟩) := by
  refine ⟨?_, ?_, ?_, ?_, ?_, ?_, ?_, ?_, ?_, ?_, ?_⟩
  · by_cases hs : s.length ≠ 0 <;> simp [DB.NewTransaction, doPost_okW, string2error, hs]
  · by_cases hs : s.length ≠ 0 <;> simp [DB.NewSnapshot, doPost_okW, string2error, hs]
  · by_cases hs : s.length ≠ 0 <;> simp [Tx.Get, doPost_okW, string2error, hs]
  · by_cases hs : s.length ≠ 0 <;> simp [Snap.Get, doPost_okW, string2error, hs]
  · by_cases hs : s.length ≠ 0 <;> simp [Tx.Set, doPost_okW, string2error, hs]
  · by_cases hs : s.length ≠ 0 <;> simp [Tx.Delete, doPost_okW, string2error, hs]
  · by_cases hs : s.length ≠ 0 <;> simp [Tx.Commit, doPost_okW, string2error, hs]
  · by_cases hs : s.length ≠ 0 <;> simp [Tx.Rollback, doPost_okW, string2error, hs]
  · by_cases hs : s.length ≠ 0 <;> simp [Snap.Discard, doPost_okW, string2error, hs]
  · rw [runCursor_eq, replyError_okW]
    by_cases hs : s.length ≠ 0 <;> simp [string2error, hs]
  · exact nextLoop_cons_okW name yield idx ⟨s, kk, v⟩ ws

/-- Claim C5: Tx.Set with a nil value fails with os.ErrInvalid and issues no
request; a non-nil value is read fully into memory before any request is sent
(the single issued request carries the complete data), and a read failure
before sending returns the reader's error with no request issued. -/
theorem set_nil_invalid_and_reads_fully (tx : Tx) (key : Bytes) :
    (∀ w, Tx.Set tx key .nilReader w = ([], .error .invalid)) ∧
    (∀ m w, Tx.Set tx key (.failing m) w = ([], .error (.reader m))) ∧
    (∀ data w, (Tx.Set tx key (.ok data) w).1 =
        [⟨"/tx/set", .set ⟨tx.id, key, data⟩⟩]) := by
  refine ⟨fun w => rfl, fun m w => rfl, fun data w => ?_⟩
  simp only [Tx.Set]
  cases h : doPost w with
  | error e => rfl
  | ok resp => by_cases he : resp.Error.length ≠ 0 <;> simp [he]

/-- Claim C6: DB.NewTransaction (and symmetrically DB.NewSnapshot) sends the
freshly generated id as the Name field of the open request, on success
returns a handle whose session id equals exactly that id, and on any
transport or domain error returns an error instead of a handle. -/
theorem new_session_binds_generated_id (db : DB) (id : String) :
    (∀ w, (DB.NewTransaction db id w).1 =
        [⟨"/new-transaction", .newTransaction ⟨id⟩⟩]) ∧
    ((DB.NewTransaction db id (okW ⟨""⟩)).2 = .ok ⟨db, id⟩) ∧
    (∀ s, (DB.NewTransaction db id (okW ⟨s⟩)).2 =
        if s.length ≠ 0 then .error (.domain s) else .ok ⟨db, id⟩) ∧
    (∀ m, (DB.NewTransaction db id (.netFailure m)).2 = .error (.transport m)) ∧
    (∀ w, (DB.NewSnapshot db id w).1 =
        [⟨"/new-snapshot", .newSnapshot ⟨id⟩⟩]) ∧
    ((DB.NewSnapshot db id (okW ⟨""⟩)).2 = .ok ⟨db, id⟩) ∧
    (∀ s, (DB.NewSnapshot db id (okW ⟨s⟩)).2 =
        if s.length ≠ 0 then .error (.domain s) else .ok ⟨db, id⟩) ∧
    (∀ m, (DB.NewSnapshot db id (.netFailure m)).2 = .error (.transport m)) := by
  refine ⟨fun w => ?_, ?_, fun s => ?_, fun m => rfl, fun w => ?_, ?_, fun s => ?_,
    fun m => rfl⟩
  · simp only [DB.NewTransaction]
    cases h : doPost w with
    | error e => rfl
    | ok resp => by_cases he : resp.Error.length ≠ 0 <;> simp [he]
  · simp [DB.NewTransaction, doPost_okW]
  · by_cases hs : s.length ≠ 0 <;> simp [DB.NewTransaction, doPost_okW, string2error, hs]
  · simp only [DB.NewSnapshot]
    cases h : doPost w with
    | error e => rfl
    | ok resp => by_cases he : resp.Error.length ≠ 0 <;> simp [he]
  · simp [DB.NewSnapshot, doPost_okW]
  · by_cases hs : s.length ≠ 0 <;> simp [DB.NewSnapshot, doPost_okW, string2error, hs]

/-- Claim C7: New retains only the scheme, host and base path of the given
URL — credentials, query string and fragment are dropped — so ServerURL of
the returned client equals exactly those three components of the input (and
New consumes no transport outcome: no network call occurs). -/
theorem new_retains_scheme_host_path (u : URL) :
    (New u).ServerURL =
      { Scheme := u.Scheme, Host := u.Host, Path := u.Path,
        User := "", RawQuery := "", Fragment := "" } := rfl

/-- Claim C8: if the consumer stops a cursor sequence early (the yield
callback returns false before EOF), the sequence terminates silently: no
error is written to the error slot, no further /it/next request is issued
(even though more outcomes are available), and the requests sent are exactly
the open request and the /it/next requests — no cursor-close request of any
kind exists. -/
theorem cursor_early_stop_is_silent (k : CKind) (db : DB) (sid : String)
    (beg en : Bytes) (name : String) (j : Nat) (rs : List NextResponse)
    (ws2 : List (WireOutcome NextResponse))
    (h : ∀ r ∈ rs, r.Error = "" ∧ r.Key.length ≠ 0) (hlen : rs.length = j + 1) :
    runCursor k db sid beg en name (stopAfter j) (okW ⟨""⟩) (rs.map okW ++ ws2) =
      ⟨openRequest k sid beg en name :: List.replicate rs.length (itNext name),
       rs.map entryOf, none, .stopped⟩ := by
  have hopen : replyError OpenReply.Error (okW (⟨""⟩ : OpenReply)) = none := by
    simp [replyError_okW]
  have hne : rs ≠ [] := by intro h0; rw [h0] at hlen; simp at hlen
  rw [runCursor_eq, hopen, nextLoop_stop name j rs h 0 (by omega) hne ws2]

/-- Claim C9: within one cursor sequence invocation every issued request
references the invocation's freshly generated cursor id: the open request
(always the first request) carries it as Name and every /it/next request
carries it as Iterator; two invocations with distinct generated ids never
reference a common cursor id. -/
theorem cursor_id_per_invocation (k : CKind) (db : DB) (sid : String)
    (beg en : Bytes) (name : String) (yield : Nat → Bytes → Bytes → Bool)
    (w1 : WireOutcome OpenReply) (ws : List (WireOutcome NextResponse)) :
    ((runCursor k db sid beg en name yield w1 ws).sent.head? =
        some (openRequest k sid beg en name)) ∧
    (∀ r ∈ (runCursor k db sid beg en name yield w1 ws).sent,
        reqCursorName r.body = some name) ∧
    (∀ (k2 : CKind) (db2 : DB) (sid2 : String) (beg2 en2 : Bytes) (name2 : String)
        (yield2 : Nat → Bytes → Bytes → Bool) (w12 : WireOutcome OpenReply)
        (ws2 : List (WireOutcome NextResponse)),
      name ≠ name2 →
      ∀ r ∈ (runCursor k db sid beg en name yield w1 ws).sent,
      ∀ r2 ∈ (runCursor k2 db2 sid2 beg2 en2 name2 yield2 w12 ws2).sent,
        reqCursorName r.body ≠ reqCursorName r2.body) := by
  refine ⟨?_, runCursor_sent_names k db sid beg en name yield w1 ws, ?_⟩
  · rw [runCursor_eq]
    cases hre : replyError OpenReply.Error w1 <;> rfl
  · intro k2 db2 sid2 beg2 en2 name2 yield2 w12 ws2 hne r hr r2 hr2
    rw [runCursor_sent_names k db sid beg en name yield w1 ws r hr,
      runCursor_sent_names k2 db2 sid2 beg2 en2 name2 yield2 w12 ws2 r2 hr2]
    simp [hne]

/-- Claim C10: on a successful Get (empty Error field) the returned reader
holds exactly the Value bytes of the response; an absent or empty Value gives
a reader over zero bytes, which is why an empty stored value, a missing Value
field, and a not-found key reported without an error text (all decoding to
the same response value) are indistinguishable at the client interface. -/
theorem get_reader_is_value_bytes (tx : Tx) (snap : Snap) (key : Bytes) :
    (∀ s v, (Tx.Get tx key (okW ⟨s, v⟩)).2 =
        if s.length ≠ 0 then .error (.domain s) else .ok v) ∧
    (∀ v, (Tx.Get tx key (okW ⟨"", v⟩)).2 = .ok v) ∧
    ((Tx.Get tx key (okW ⟨"", []⟩)).2 = .ok []) ∧
    (∀ s v, (Snap.Get snap key (okW ⟨s, v⟩)).2 =
        if s.length ≠ 0 then .error (.domain s) else .ok v) ∧
    (∀ v, (Snap.Get snap key (okW ⟨"", v⟩)).2 = .ok v) ∧
    ((Snap.Get snap key (okW ⟨"", []⟩)).2 = .ok []) := by
  refine ⟨fun s v => ?_, fun v => ?_, ?_, fun s v => ?_, fun v => ?_, ?_⟩
  · by_cases hs : s.length ≠ 0 <;> simp [Tx.Get, doPost_okW, string2error, hs]
  · simp [Tx.Get, doPost_okW]
  · simp [Tx.Get, doPost_okW]
  · by_cases hs : s.length ≠ 0 <;> simp [Snap.Get, doPost_okW, string2error, hs]
  · simp [Snap.Get, doPost_okW]
  · simp [Snap.Get, doPost_okW]

/-! ### Concrete witnesses -/

/-- Witness for C1 at a concrete two-reply environment: one entry, then the
empty-key EOF sentinel. -/
theorem cursor_yields_reply_entries_witness :
    (runCursor .txAscend sampleDB "t1" [] [] "c1" yieldAll (okW ⟨""⟩)
        (([⟨"", [1], [2]⟩, ⟨"", [], []⟩] : List NextResponse).map okW)).yielded =
      [([1], [2])] ∧
    (runCursor .txAscend sampleDB "t1" [] [] "c1" yieldAll (okW ⟨""⟩)
        (([⟨"", [1], [2]⟩, ⟨"", [], []⟩] : List NextResponse).map okW)).errSlot = none ∧
    (runCursor .txAscend sampleDB "t1" [] [] "c1" yieldAll (okW ⟨""⟩)
        (([⟨"", [1], [2]⟩, ⟨"", [], []⟩] : List NextResponse).map okW)).ending = .eof := by
  have h := cursor_yields_reply_entries .txAscend sampleDB "t1" [] [] "c1"
    [⟨"", [1], [2]⟩, ⟨"", [], []⟩] (by decide)
  exact ⟨h.1.trans (by decide), h.2.1, h.2.2.mpr (by decide)⟩

/-- Witness for C2: a failed open writes the error and yields nothing; a
failed second /it/next call writes the error after the first entry. -/
theorem cursor_errors_to_error_slot_witness :
    runCursor .txAscend sampleDB "t1" [] [] "c2" yieldAll (.netFailure "down") [] =
      ⟨[openRequest .txAscend "t1" [] [] "c2"], [], some (.transport "down"),
       .openFailed⟩ ∧
    runCursor .txAscend sampleDB "t1" [] [] "c2" yieldAll (okW ⟨""⟩)
        (([⟨"", [1], [2]⟩] : List NextResponse).map okW ++ [.netFailure "down"]) =
      ⟨openRequest .txAscend "t1" [] [] "c2" :: List.replicate 2 (itNext "c2"),
       [([1], [2])], some (.transport "down"), .errored⟩ := by
  have h := cursor_errors_to_error_slot .txAscend sampleDB "t1" [] [] "c2"
    (.transport "down")
  constructor
  · exact h.1 yieldAll (.netFailure "down") [] (by decide)
  · exact (h.2 [⟨"", [1], [2]⟩] (.netFailure "down") [] (by decide) (by decide)).trans
      (by decide)

/-- Witness for C3 at status 500: transport error carrying the code, body
outcome irrelevant. -/
theorem doPost_non_ok_is_transport_witness :
    doPost (.status 500 (.decoded (⟨"oops", [7]⟩ : GetResponse))) =
      (.error (.transport "received non-ok http status 500") : Except Err GetResponse) ∧
    doPost (.status 500 (.decoded (⟨"oops", [7]⟩ : GetResponse))) =
      doPost (.status 500 (.readFailure "gone") : WireOutcome GetResponse) := by
  have h := @doPost_non_ok_is_transport GetResponse 500 (by decide)
    (.decoded ⟨"oops", [7]⟩) (.readFailure "gone")
  have hstr : "received non-ok http status " ++ toString 500 =
      "received non-ok http status 500" := by decide
  exact ⟨hstr ▸ h.1, h.2⟩

/-- Witness for C8: the consumer stops after the first entry while a further
outcome is available; no error, no further request. -/
theorem cursor_early_stop_is_silent_witness :
    runCursor .snapDescend sampleDB "s1" [] [] "c8" (stopAfter 0) (okW ⟨""⟩)
        (([⟨"", [3], [4]⟩] : List NextResponse).map okW ++ [.netFailure "later"]) =
      ⟨openRequest .snapDescend "s1" [] [] "c8" :: List.replicate 1 (itNext "c8"),
       [([3], [4])], none, .stopped⟩ := by
  have h := cursor_early_stop_is_silent .snapDescend sampleDB "s1" [] [] "c8" 0
    [⟨"", [3], [4]⟩] [.netFailure "later"] (by decide) (by decide)
  exact h.trans (by decide)

/-- Witness for C9 at two concrete invocations with distinct fresh ids. -/
theorem cursor_id_per_invocation_witness :
    (runCursor .txScan sampleDB "t1" [] [] "c9a" yieldAll (okW ⟨""⟩) []).sent.head? =
      some (openRequest .txScan "t1" [] [] "c9a") ∧
    reqCursorName (openRequest .txScan "t1" [] [] "c9a").body = some "c9a" ∧
    reqCursorName (openRequest .txScan "t1" [] [] "c9a").body ≠
      reqCursorName (openRequest .snapScan "s1" [] [] "c9b").body := by
  have h := cursor_id_per_invocation .txScan sampleDB "t1" [] [] "c9a" yieldAll
    (okW ⟨""⟩) []
  refine ⟨h.1, ?_, ?_⟩
  · exact h.2.1 (openRequest .txScan "t1" [] [] "c9a") (by decide)
  · exact h.2.2 .snapScan sampleDB "s1" [] [] "c9b" yieldAll (okW ⟨""⟩) []
      (by decide) (openRequest .txScan "t1" [] [] "c9a") (by decide)
      (openRequest .snapScan "s1" [] [] "c9b") (by decide)

end Kvhttp
